import Mathlib

/-!
# Verification of the intent.js core against its specification

Shallow embedding of the rate-limit bucket (`src/rest/RateLimitBucket.ts`,
which contains two versions of the class: a promise-chain-mutex version and
a spin-wait-flag version), the REST request executor (`src/rest/REST.ts`)
and the gateway connection manager (`src/gateway/Gateway.ts`).

JavaScript numbers holding the bucket counters are either `Infinity` (the
field initializers) or integers parsed from response headers; they are
modelled by `JNum`.  Times are naturals: `now` is in milliseconds
(`Date.now()`), bucket `reset` is in epoch seconds as in the headers.
-/

namespace IntentJs

/-- A JavaScript number as used by the bucket counters: `Infinity` or an
integer.  `Infinity - 1 = Infinity` and `Infinity > 0` as in JS. -/
inductive JNum where
  | inf : JNum
  | fin : Int → JNum
deriving DecidableEq, Repr

/-- `0 < x` on JS numbers (`Infinity > 0` is true). -/
def JNum.isPos : JNum → Bool
  | .inf => true
  | .fin n => decide (0 < n)

/-- `x--` as applied by the admission paths (`Infinity - 1 = Infinity`). -/
def JNum.dec : JNum → JNum
  | .inf => .inf
  | .fin n => .fin (n - 1)

/-- `0 ≤ x` (`Infinity` counts as non-negative). -/
def JNum.nonneg : JNum → Bool
  | .inf => true
  | .fin n => decide (0 ≤ n)

/-- The scalar fields of `RateLimitBucket` (identical field initializers in
both versions): `limit = remaining = Infinity`, `reset = 0`, no bucket id. -/
structure BucketCore where
  limit : JNum := .inf
  remaining : JNum := .inf
  reset : Nat := 0
  bucketId : Option String := none
deriving DecidableEq, Repr

/-- The freshly constructed bucket. -/
def initBucket : BucketCore := {}

/-- Outcome of one acquire attempt: admitted at once, or enqueued. -/
inductive AcqRes where
  | admitted : AcqRes
  | queued : AcqRes
deriving DecidableEq, Repr

/-- The reset guard of `_acquireSlot` / the start of `acquire()`:
`now >= this.reset * 1000 && this.reset > 0`. -/
def resetDue (now : Nat) (c : BucketCore) : Bool :=
  decide (c.reset * 1000 ≤ now) && decide (0 < c.reset)

/-- `if (now >= resetMs && this.reset > 0) this.remaining = this.limit;` -/
def refillIfDue (now : Nat) (c : BucketCore) : BucketCore :=
  if resetDue now c then { c with remaining := c.limit } else c

/-- The serialized admission decision, identical in both versions
(`_acquireSlot` in the promise-chain class, the body of `acquire()` in the
spin-wait class): refill when the window has passed, then admit and
decrement when `remaining > 0`, otherwise hand off to the queue. -/
def acquireSlot (now : Nat) (c : BucketCore) : BucketCore × AcqRes :=
  let c := refillIfDue now c
  if c.remaining.isPos then ({ c with remaining := c.remaining.dec }, .admitted)
  else (c, .queued)

/-- The rate-limit response headers consumed by `update()`.  A numeric
header, when present, is a non-negative integer as sent by the server
(`parseInt` of its digits); an absent header leaves the field untouched. -/
structure HeadersM where
  limitH : Option Nat := none
  remainingH : Option Nat := none
  resetH : Option Nat := none
  bucketH : Option String := none
deriving DecidableEq, Repr

/-- `update(headers)` — identical in both versions: each present header
overwrites the corresponding field. -/
def updateCore (h : HeadersM) (c : BucketCore) : BucketCore :=
  { limit := match h.limitH with | some n => .fin n | none => c.limit
    remaining := match h.remainingH with | some n => .fin n | none => c.remaining
    reset := h.resetH.getD c.reset
    bucketId := match h.bucketH with | some b => some b | none => c.bucketId }

/-! ## The bucket as a labelled transition system

Single-threaded cooperative scheduling: each step is one synchronous
segment of JS code between suspension points.  The queue processor's
position between its awaits is the program counter `Pc`. -/

/-- Program counter of `processQueue`. -/
inductive Pc where
  | idle
  | loopTop
  | sleeping (target : Nat)
  | admitting
deriving DecidableEq, Repr

/-- Full bucket state: scalar fields, waiter queue (by caller id, in
arrival order), and the processor's position (`idle` ↔ `processing =
false`). -/
structure BucketSt where
  core : BucketCore
  queue : List Nat
  pc : Pc
deriving DecidableEq, Repr

/-- A configuration: current time (`Date.now()`, ms) and bucket state. -/
structure BConf where
  now : Nat
  st : BucketSt
deriving DecidableEq, Repr

/-- Which of the two `RateLimitBucket` classes is running: `chain` is the
promise-chain-mutex version (first in the file), `spin` the
spin-wait-flag version (second). -/
inductive BVer where
  | chain : BVer
  | spin : BVer
deriving DecidableEq, Repr

/-- Step labels.  `acquire w refilled admitted` records whether the
entrant's reset check restored `remaining = limit` and whether it was
admitted; `procRefill` is the queue processor's `remaining = limit`
assignment. -/
inductive BLab where
  | tick (d : Nat)
  | acquire (w : Nat) (refilled admitted : Bool)
  | update (h : HeadersM)
  | clear
  | procSleep
  | procExit
  | procRefill
  | procLoop
  | admitQ (w : Nat)
  | admitDone
deriving DecidableEq, Repr

/-- One atomic step of the bucket subsystem, version `v`. -/
inductive BStep : BVer → BConf → BLab → BConf → Prop where
  /-- Time advances. -/
  | tick (v : BVer) (now : Nat) (st : BucketSt) (d : Nat) :
      BStep v ⟨now, st⟩ (.tick d) ⟨now + d, st⟩
  /-- An entrant reaches its serialized turn and is admitted at once. -/
  | acqAdmit (v : BVer) (now : Nat) (c : BucketCore) (q : List Nat) (pc : Pc) (w : Nat)
      (h : (acquireSlot now c).2 = .admitted) :
      BStep v ⟨now, ⟨c, q, pc⟩⟩ (.acquire w (resetDue now c) true)
        ⟨now, ⟨(acquireSlot now c).1, q, pc⟩⟩
  /-- An entrant finds no capacity, enqueues itself and pokes the
  processor (`processQueue` returns at once unless `processing` was
  false). -/
  | acqQueue (v : BVer) (now : Nat) (c : BucketCore) (q : List Nat) (pc : Pc) (w : Nat)
      (h : (acquireSlot now c).2 = .queued) :
      BStep v ⟨now, ⟨c, q, pc⟩⟩ (.acquire w (resetDue now c) false)
        ⟨now, ⟨(acquireSlot now c).1, q ++ [w], if pc = .idle then .loopTop else pc⟩⟩
  /-- `update()` from a completed response. -/
  | upd (v : BVer) (now : Nat) (c : BucketCore) (q : List Nat) (pc : Pc) (h : HeadersM) :
      BStep v ⟨now, ⟨c, q, pc⟩⟩ (.update h) ⟨now, ⟨updateCore h c, q, pc⟩⟩
  /-- `clear(err)` drains the queue. -/
  | clr (v : BVer) (now : Nat) (c : BucketCore) (q : List Nat) (pc : Pc) :
      BStep v ⟨now, ⟨c, q, pc⟩⟩ .clear ⟨now, ⟨c, [], pc⟩⟩
  /-- Loop condition fails: `processing = false`, processor exits. -/
  | procExit (v : BVer) (now : Nat) (c : BucketCore) :
      BStep v ⟨now, ⟨c, [], .loopTop⟩⟩ .procExit ⟨now, ⟨c, [], .idle⟩⟩
  /-- `now < resetMs`: sleep until the reset time read now. -/
  | procSleep (v : BVer) (now : Nat) (c : BucketCore) (q : List Nat)
      (hq : q ≠ []) (ht : now < c.reset * 1000) :
      BStep v ⟨now, ⟨c, q, .loopTop⟩⟩ .procSleep ⟨now, ⟨c, q, .sleeping (c.reset * 1000)⟩⟩
  /-- `now ≥ resetMs`: no sleep; both versions restore `remaining =
  limit` (the chain version's re-check passes trivially) and enter the
  release loop. -/
  | procRefillTop (v : BVer) (now : Nat) (c : BucketCore) (q : List Nat)
      (hq : q ≠ []) (ht : c.reset * 1000 ≤ now) :
      BStep v ⟨now, ⟨c, q, .loopTop⟩⟩ .procRefill
        ⟨now, ⟨{ c with remaining := c.limit }, q, .admitting⟩⟩
  /-- Chain version wakes and re-reads `this.reset`: the window has been
  reached, restore `remaining = limit`. -/
  | wakeRefillChain (now : Nat) (c : BucketCore) (q : List Nat) (t : Nat)
      (hw : t ≤ now) (ht : c.reset * 1000 ≤ now) :
      BStep .chain ⟨now, ⟨c, q, .sleeping t⟩⟩ .procRefill
        ⟨now, ⟨{ c with remaining := c.limit }, q, .admitting⟩⟩
  /-- Chain version wakes and re-reads `this.reset`: the window moved
  forward while sleeping — `continue`, loop and sleep again. -/
  | wakeLoopChain (now : Nat) (c : BucketCore) (q : List Nat) (t : Nat)
      (hw : t ≤ now) (ht : now < c.reset * 1000) :
      BStep .chain ⟨now, ⟨c, q, .sleeping t⟩⟩ .procLoop ⟨now, ⟨c, q, .loopTop⟩⟩
  /-- Spin version wakes: restores `remaining = limit` with no re-check of
  the (possibly moved) reset time. -/
  | wakeRefillSpin (now : Nat) (c : BucketCore) (q : List Nat) (t : Nat)
      (hw : t ≤ now) :
      BStep .spin ⟨now, ⟨c, q, .sleeping t⟩⟩ .procRefill
        ⟨now, ⟨{ c with remaining := c.limit }, q, .admitting⟩⟩
  /-- Release loop: shift the head waiter, decrement, resolve. -/
  | admitQ (v : BVer) (now : Nat) (c : BucketCore) (w : Nat) (ws : List Nat)
      (hr : c.remaining.isPos) :
      BStep v ⟨now, ⟨c, w :: ws, .admitting⟩⟩ (.admitQ w)
        ⟨now, ⟨{ c with remaining := c.remaining.dec }, ws, .admitting⟩⟩
  /-- Release loop ends: queue empty or no capacity, back to the outer
  loop condition. -/
  | admitDone (v : BVer) (now : Nat) (c : BucketCore) (q : List Nat)
      (h : q = [] ∨ ¬ c.remaining.isPos) :
      BStep v ⟨now, ⟨c, q, .admitting⟩⟩ .admitDone ⟨now, ⟨c, q, .loopTop⟩⟩

/-- A finite labelled run of the bucket subsystem. -/
inductive BTrace (v : BVer) : BConf → List BLab → BConf → Prop where
  | nil (a : BConf) : BTrace v a [] a
  | cons {a b c : BConf} {l : BLab} {ls : List BLab} :
      BStep v a l b → BTrace v b ls c → BTrace v a (l :: ls) c

/-- Configuration of a freshly constructed bucket at time `t`. -/
def freshConf (t : Nat) : BConf := ⟨t, ⟨initBucket, [], .idle⟩⟩

/-- Labels produced by callers only: time passing and `acquire()` calls. -/
def isTickOrAcquire : BLab → Bool
  | .tick _ => true
  | .acquire _ _ _ => true
  | _ => false

lemma resetDue_init (now : Nat) : resetDue now initBucket = false := by
  simp [resetDue, initBucket]

lemma acquireSlot_init (now : Nat) :
    acquireSlot now initBucket = (initBucket, .admitted) := by
  simp [acquireSlot, refillIfDue, resetDue_init, initBucket, JNum.isPos, JNum.dec]

lemma fresh_trace_aux {v : BVer} {a : BConf} {ls : List BLab} {b : BConf}
    (tr : BTrace v a ls b) (hc : a.st.core = initBucket) (hq : a.st.queue = [])
    (hl : ∀ l ∈ ls, isTickOrAcquire l = true) :
    b.st.core = initBucket ∧ b.st.queue = [] ∧
      (∀ l ∈ ls, ∀ w r ad, l = .acquire w r ad → r = false ∧ ad = true) := by
  induction tr with
  | nil a => exact ⟨hc, hq, by simp⟩
  | cons hstep htr ih =>
    rename_i a b c l ls
    have hlhead := hl l (List.mem_cons_self _ _)
    have hltail : ∀ l ∈ ls, isTickOrAcquire l = true :=
      fun l hm => hl l (List.mem_cons_of_mem _ hm)
    cases hstep with
    | tick v now st d =>
      obtain ⟨h1, h2, h3⟩ := ih hc hq hltail
      refine ⟨h1, h2, ?_⟩
      intro l hm w r ad he
      rcases List.mem_cons.mp hm with h | h
      · subst h; cases he
      · exact h3 l h w r ad he
    | acqAdmit v now cc q pc w h =>
      have hcc : cc = initBucket := hc
      have hqq : q = [] := hq
      subst hcc; subst hqq
      obtain ⟨h1, h2, h3⟩ :=
        ih (show ((acquireSlot now initBucket).1 = initBucket) by
              rw [acquireSlot_init]) rfl hltail
      refine ⟨h1, h2, ?_⟩
      intro l hm w' r ad he
      rcases List.mem_cons.mp hm with hmem | hmem
      · subst hmem
        injection he with e1 e2 e3
        subst e2; subst e3
        exact ⟨resetDue_init now, rfl⟩
      · exact h3 l hmem w' r ad he
    | acqQueue v now cc q pc w h =>
      have hcc : cc = initBucket := hc
      subst hcc
      rw [acquireSlot_init] at h
      cases h
    | upd v now cc q pc h => simp [isTickOrAcquire] at hlhead
    | clr v now cc q pc => simp [isTickOrAcquire] at hlhead
    | procExit v now cc => simp [isTickOrAcquire] at hlhead
    | procSleep v now cc q hq2 ht => simp [isTickOrAcquire] at hlhead
    | procRefillTop v now cc q hq2 ht => simp [isTickOrAcquire] at hlhead
    | wakeRefillChain now cc q t hw ht => simp [isTickOrAcquire] at hlhead
    | wakeLoopChain now cc q t hw ht => simp [isTickOrAcquire] at hlhead
    | wakeRefillSpin now cc q t hw => simp [isTickOrAcquire] at hlhead
    | admitQ v now cc w ws hr => simp [isTickOrAcquire] at hlhead
    | admitDone v now cc q h => simp [isTickOrAcquire] at hlhead

/-! ## Counter invariants (claim C1) -/

/-- Both counters of a bucket are non-negative (`Infinity` counts). -/
def coreNonneg (c : BucketCore) : Prop :=
  c.limit.nonneg = true ∧ c.remaining.nonneg = true

lemma JNum.nonneg_dec {x : JNum} (h : x.isPos = true) : x.dec.nonneg = true := by
  cases x with
  | inf => rfl
  | fin n =>
    simp [JNum.isPos] at h
    simp [JNum.dec, JNum.nonneg]
    omega

lemma refillIfDue_nonneg {now : Nat} {c : BucketCore} (h : coreNonneg c) :
    coreNonneg (refillIfDue now c) := by
  unfold refillIfDue
  split
  · exact ⟨h.1, h.1⟩
  · exact h

/-- Case analysis of `_acquireSlot` / the `acquire()` body. -/
lemma acquireSlot_spec (now : Nat) (c : BucketCore) :
    ((acquireSlot now c).2 = .admitted →
      (refillIfDue now c).remaining.isPos = true ∧
      (acquireSlot now c).1
        = { refillIfDue now c with remaining := (refillIfDue now c).remaining.dec }) ∧
    ((acquireSlot now c).2 = .queued →
      (refillIfDue now c).remaining.isPos = false ∧
      (acquireSlot now c).1 = refillIfDue now c) := by
  by_cases h : (refillIfDue now c).remaining.isPos = true
  · simp [acquireSlot, h]
  · simp [acquireSlot, h]

lemma acquireSlot_nonneg {now : Nat} {c : BucketCore} (h : coreNonneg c) :
    coreNonneg (acquireSlot now c).1 := by
  have hr : coreNonneg (refillIfDue now c) := refillIfDue_nonneg h
  have hs := acquireSlot_spec now c
  cases he : (acquireSlot now c).2 with
  | admitted =>
    obtain ⟨hp, h1⟩ := hs.1 he
    rw [h1]
    exact ⟨hr.1, JNum.nonneg_dec hp⟩
  | queued =>
    obtain ⟨_, h1⟩ := hs.2 he
    rw [h1]; exact hr

lemma updateCore_nonneg {h : HeadersM} {c : BucketCore} (hc : coreNonneg c) :
    coreNonneg (updateCore h c) := by
  unfold updateCore coreNonneg
  constructor
  · cases h.limitH with
    | none => exact hc.1
    | some n => simp [JNum.nonneg]
  · cases h.remainingH with
    | none => exact hc.2
    | some n => simp [JNum.nonneg]

lemma step_nonneg {v : BVer} {a : BConf} {l : BLab} {b : BConf}
    (hs : BStep v a l b) (h : coreNonneg a.st.core) : coreNonneg b.st.core := by
  cases hs with
  | tick v now st d => exact h
  | acqAdmit v now c q pc w hh => exact acquireSlot_nonneg h
  | acqQueue v now c q pc w hh => exact acquireSlot_nonneg h
  | upd v now c q pc hh => exact updateCore_nonneg h
  | clr v now c q pc => exact h
  | procExit v now c => exact h
  | procSleep v now c q hq ht => exact h
  | procRefillTop v now c q hq ht => exact ⟨h.1, h.1⟩
  | wakeRefillChain now c q t hw ht => exact ⟨h.1, h.1⟩
  | wakeLoopChain now c q t hw ht => exact h
  | wakeRefillSpin now c q t hw => exact ⟨h.1, h.1⟩
  | admitQ v now c w ws hr => exact ⟨h.1, JNum.nonneg_dec hr⟩
  | admitDone v now c q hh => exact h

lemma trace_nonneg {v : BVer} {a : BConf} {ls : List BLab} {b : BConf}
    (tr : BTrace v a ls b) (h : coreNonneg a.st.core) : coreNonneg b.st.core := by
  induction tr with
  | nil a => exact h
  | cons hstep htr ih => exact ih (step_nonneg hstep h)

/-- C1 (amended): for the promise-chain version of `RateLimitBucket`:
(1) `remaining` and `limit` stay non-negative along every run;
(2) every admitted call applies the JS decrement to the post-reset-check
`remaining` (exactly one less when finite, unchanged when `Infinity`),
and only fires when that value is positive;
(3) the admission and queue-processing paths restore `remaining = limit`
only when the current time has passed the reset time they read at that
moment;
(4) no step other than an acquire, a queued admission, an `update()` or a
queue-processor refill changes `remaining` at all. -/
theorem C1_remaining_invariants_chain :
    (∀ (a : BConf) (ls : List BLab) (b : BConf),
       BTrace .chain a ls b → coreNonneg a.st.core → coreNonneg b.st.core) ∧
    (∀ (a b : BConf) (w : Nat) (r : Bool),
       BStep .chain a (.acquire w r true) b →
         (refillIfDue a.now a.st.core).remaining.isPos = true ∧
         b.st.core.remaining = (refillIfDue a.now a.st.core).remaining.dec) ∧
    (∀ (a b : BConf) (w : Nat),
       BStep .chain a (.admitQ w) b →
         a.st.core.remaining.isPos = true ∧
         b.st.core.remaining = a.st.core.remaining.dec) ∧
    (∀ (a b : BConf), BStep .chain a .procRefill b →
       a.st.core.reset * 1000 ≤ a.now ∧ b.st.core.remaining = a.st.core.limit) ∧
    (∀ (a b : BConf) (w : Nat) (r ad : Bool),
       BStep .chain a (.acquire w r ad) b → r = true →
       a.st.core.reset * 1000 ≤ a.now ∧ 0 < a.st.core.reset) ∧
    (∀ (a b : BConf) (l : BLab), BStep .chain a l b →
       b.st.core.remaining ≠ a.st.core.remaining →
       (∃ w ad, l = .acquire w (resetDue a.now a.st.core) ad) ∨
       (∃ w, l = .admitQ w) ∨ (∃ h, l = .update h) ∨ l = .procRefill) := by
  refine ⟨fun a ls b tr h => trace_nonneg tr h, ?_, ?_, ?_, ?_, ?_⟩
  · intro a b w r hs
    cases hs with
    | acqAdmit v now c q pc w hh =>
      obtain ⟨hp, h1⟩ := (acquireSlot_spec now c).1 hh
      exact ⟨hp, by rw [h1]⟩
  · intro a b w hs
    cases hs with
    | admitQ v now c w ws hr => exact ⟨hr, rfl⟩
  · intro a b hs
    cases hs with
    | procRefillTop v now c q hq ht => exact ⟨ht, rfl⟩
    | wakeRefillChain now c q t hw ht => exact ⟨ht, rfl⟩
  · intro a b w r ad hs hr
    cases hs with
    | acqAdmit v now c q pc w hh =>
      simp [resetDue] at hr
      exact hr
    | acqQueue v now c q pc w hh =>
      simp [resetDue] at hr
      exact hr
  · intro a b l hs hne
    cases hs with
    | tick v now st d => exact absurd rfl hne
    | acqAdmit v now c q pc w hh => exact Or.inl ⟨w, true, rfl⟩
    | acqQueue v now c q pc w hh => exact Or.inl ⟨w, false, rfl⟩
    | upd v now c q pc hh => exact Or.inr (Or.inr (Or.inl ⟨hh, rfl⟩))
    | clr v now c q pc => exact absurd rfl hne
    | procExit v now c => exact absurd rfl hne
    | procSleep v now c q hq ht => exact absurd rfl hne
    | procRefillTop v now c q hq ht => exact Or.inr (Or.inr (Or.inr rfl))
    | wakeRefillChain now c q t hw ht => exact Or.inr (Or.inr (Or.inr rfl))
    | wakeLoopChain now c q t hw ht => exact absurd rfl hne
    | admitQ v now c w ws hr => exact Or.inr (Or.inl ⟨w, rfl⟩)
    | admitDone v now c q hh => exact absurd rfl hne

/-- Concrete run refuting C1 as stated: in the spin-wait version a
waiter queues at `remaining = 0` with `reset = 10`; while the processor
sleeps, `update()` moves the reset time to `20`; on waking at `t = 10 s`
the processor restores `remaining = limit` although the current time has
not passed the (current) reset time.  Also, on the fresh bucket an
admitted call leaves `remaining` unchanged (`Infinity - 1 = Infinity`),
so `remaining` does not always decrease by exactly one. -/
theorem C1_counterexample :
    BTrace BVer.spin ⟨0, ⟨⟨.fin 2, .fin 0, 10, none⟩, [], Pc.idle⟩⟩
      [BLab.acquire 1 false false, BLab.procSleep,
        BLab.update ⟨none, none, some 20, none⟩, BLab.tick 10000]
      ⟨10000, ⟨⟨.fin 2, .fin 0, 20, none⟩, [1], Pc.sleeping 10000⟩⟩ ∧
    BStep BVer.spin ⟨10000, ⟨⟨.fin 2, .fin 0, 20, none⟩, [1], Pc.sleeping 10000⟩⟩
      BLab.procRefill
      ⟨10000, ⟨⟨.fin 2, .fin 2, 20, none⟩, [1], Pc.admitting⟩⟩ ∧
    (10000 < 20 * 1000 ∧ (JNum.fin 2) ≠ (JNum.fin 0)) ∧
    (acquireSlot 0 initBucket).2 = AcqRes.admitted ∧
    (acquireSlot 0 initBucket).1.remaining = initBucket.remaining := by
  refine ⟨?_, ?_, by decide, by decide, by decide⟩
  · exact
      BTrace.cons (BStep.acqQueue _ 0 ⟨.fin 2, .fin 0, 10, none⟩ [] Pc.idle 1 (by decide))
        (BTrace.cons (BStep.procSleep _ 0 ⟨.fin 2, .fin 0, 10, none⟩ [1]
            (by decide) (by decide))
          (BTrace.cons (BStep.upd _ 0 ⟨.fin 2, .fin 0, 10, none⟩ [1]
              (Pc.sleeping 10000) ⟨none, none, some 20, none⟩)
            (BTrace.cons (BStep.tick _ 0 ⟨⟨.fin 2, .fin 0, 20, none⟩, [1],
                Pc.sleeping 10000⟩ 10000)
              (BTrace.nil _))))
  · exact BStep.wakeRefillSpin 10000 ⟨.fin 2, .fin 0, 20, none⟩ [1] 10000 (by decide)

/-- Witness for the amended C1: its per-step parts applied at a concrete
chain-version refill step and a concrete admitted acquire. -/
theorem C1_remaining_invariants_chain_witness :
    (BStep BVer.chain ⟨10000, ⟨⟨.fin 2, .fin 0, 10, none⟩, [1], Pc.sleeping 10000⟩⟩
        BLab.procRefill
        ⟨10000, ⟨⟨.fin 2, .fin 2, 10, none⟩, [1], Pc.admitting⟩⟩ ∧
      10 * 1000 ≤ 10000) ∧
    (BStep BVer.chain ⟨0, ⟨⟨.fin 5, .fin 3, 99, none⟩, [], Pc.idle⟩⟩
        (BLab.acquire 4 false true)
        ⟨0, ⟨⟨.fin 5, .fin 2, 99, none⟩, [], Pc.idle⟩⟩ ∧
      (JNum.fin 2) = (JNum.fin 3).dec) := by
  have hrefill : BStep BVer.chain
      ⟨10000, ⟨⟨.fin 2, .fin 0, 10, none⟩, [1], Pc.sleeping 10000⟩⟩
      BLab.procRefill
      ⟨10000, ⟨⟨.fin 2, .fin 2, 10, none⟩, [1], Pc.admitting⟩⟩ :=
    BStep.wakeRefillChain 10000 ⟨.fin 2, .fin 0, 10, none⟩ [1] 10000
      (by decide) (by decide)
  have hacq : BStep BVer.chain ⟨0, ⟨⟨.fin 5, .fin 3, 99, none⟩, [], Pc.idle⟩⟩
      (BLab.acquire 4 false true)
      ⟨0, ⟨⟨.fin 5, .fin 2, 99, none⟩, [], Pc.idle⟩⟩ :=
    BStep.acqAdmit _ 0 ⟨.fin 5, .fin 3, 99, none⟩ [] Pc.idle 4 (by decide)
  refine ⟨⟨hrefill, (C1_remaining_invariants_chain.2.2.2.1 _ _ hrefill).1⟩,
    hacq, ?_⟩
  have h2 := (C1_remaining_invariants_chain.2.1 _ _ 4 false hacq).2
  exact h2.symm.trans rfl

/-! ## Queue-processor behaviour (claim C4) -/

/-- Labels of queue-processor steps (code inside `processQueue`). -/
def isProcLab : BLab → Bool
  | .procSleep => true
  | .procExit => true
  | .procRefill => true
  | .procLoop => true
  | .admitQ _ => true
  | .admitDone => true
  | _ => false

/-- C4 (amended, promise-chain version): an exhausted entrant enqueues at
the back; with a non-empty queue and an unexpired window the processor
sleeps until the reset time it read; on waking it re-reads the reset
time and loops without touching the counters when the window moved
forward, otherwise restores `remaining = limit` and enters the release
loop; the release loop admits exactly the head waiter while capacity is
positive, decrementing per admission, and stops when the queue empties
or capacity runs out. -/
theorem C4_queue_processor_chain :
    (∀ (a b : BConf) (w : Nat) (r : Bool),
       BStep .chain a (.acquire w r false) b → b.st.queue = a.st.queue ++ [w]) ∧
    (∀ (a : BConf) (l : BLab) (b : BConf),
       BStep .chain a l b → isProcLab l = true → a.st.pc = .loopTop →
       a.st.queue ≠ [] → a.now < a.st.core.reset * 1000 →
       l = .procSleep ∧
         b = ⟨a.now, ⟨a.st.core, a.st.queue, .sleeping (a.st.core.reset * 1000)⟩⟩) ∧
    (∀ (a : BConf) (l : BLab) (b : BConf) (t : Nat),
       BStep .chain a l b → isProcLab l = true → a.st.pc = .sleeping t →
       t ≤ a.now ∧
       (a.now < a.st.core.reset * 1000 →
         l = .procLoop ∧ b = ⟨a.now, ⟨a.st.core, a.st.queue, .loopTop⟩⟩) ∧
       (a.st.core.reset * 1000 ≤ a.now →
         l = .procRefill ∧
           b = ⟨a.now, ⟨{ a.st.core with remaining := a.st.core.limit },
                 a.st.queue, .admitting⟩⟩)) ∧
    (∀ (a : BConf) (l : BLab) (b : BConf),
       BStep .chain a l b → isProcLab l = true → a.st.pc = .admitting →
       (∀ w ws, a.st.queue = w :: ws → a.st.core.remaining.isPos = true →
         l = .admitQ w ∧ b.st.queue = ws ∧
           b.st.core.remaining = a.st.core.remaining.dec) ∧
       ((a.st.queue = [] ∨ a.st.core.remaining.isPos = false) →
         l = .admitDone ∧ b = ⟨a.now, ⟨a.st.core, a.st.queue, .loopTop⟩⟩)) := by
  refine ⟨?_, ?_, ?_, ?_⟩
  · intro a b w r hs
    cases hs with
    | acqQueue v now c q pc w hh => rfl
  · intro a l b hs hproc hpc hq hlt
    cases hs with
    | tick v now st d => simp [isProcLab] at hproc
    | acqAdmit v now c q pc w hh => simp [isProcLab] at hproc
    | acqQueue v now c q pc w hh => simp [isProcLab] at hproc
    | upd v now c q pc hh => simp [isProcLab] at hproc
    | clr v now c q pc => simp [isProcLab] at hproc
    | procExit v now c => exact absurd rfl hq
    | procSleep v now c q hq2 ht => exact ⟨rfl, rfl⟩
    | procRefillTop v now c q hq2 ht =>
      dsimp only at hlt
      omega
    | wakeRefillChain now c q t hw ht => cases hpc
    | wakeLoopChain now c q t hw ht => cases hpc
    | admitQ v now c w ws hr => cases hpc
    | admitDone v now c q hh => cases hpc
  · intro a l b t hs hproc hpc
    cases hs with
    | tick v now st d => simp [isProcLab] at hproc
    | acqAdmit v now c q pc w hh => simp [isProcLab] at hproc
    | acqQueue v now c q pc w hh => simp [isProcLab] at hproc
    | upd v now c q pc hh => simp [isProcLab] at hproc
    | clr v now c q pc => simp [isProcLab] at hproc
    | procExit v now c => cases hpc
    | procSleep v now c q hq2 ht => cases hpc
    | procRefillTop v now c q hq2 ht => cases hpc
    | wakeRefillChain now c q t2 hw ht =>
      injection hpc with he
      subst he
      refine ⟨hw, ?_, fun _ => ⟨rfl, rfl⟩⟩
      intro hlt
      dsimp only at hlt
      omega
    | wakeLoopChain now c q t2 hw ht =>
      injection hpc with he
      subst he
      refine ⟨hw, fun _ => ⟨rfl, rfl⟩, ?_⟩
      intro hge
      dsimp only at hge
      omega
    | admitQ v now c w ws hr => cases hpc
    | admitDone v now c q hh => cases hpc
  · intro a l b hs hproc hpc
    cases hs with
    | tick v now st d => simp [isProcLab] at hproc
    | acqAdmit v now c q pc w hh => simp [isProcLab] at hproc
    | acqQueue v now c q pc w hh => simp [isProcLab] at hproc
    | upd v now c q pc hh => simp [isProcLab] at hproc
    | clr v now c q pc => simp [isProcLab] at hproc
    | procExit v now c => cases hpc
    | procSleep v now c q hq2 ht => cases hpc
    | procRefillTop v now c q hq2 ht => cases hpc
    | wakeRefillChain now c q t hw ht => cases hpc
    | wakeLoopChain now c q t hw ht => cases hpc
    | admitQ v now c w ws hr =>
      constructor
      · intro w' ws' hq hpos
        injection hq with e1 e2
        subst e1; subst e2
        exact ⟨rfl, rfl, rfl⟩
      · intro hdone
        rcases hdone with h | h
        · cases h
        · rw [hr] at h; cases h
    | admitDone v now c q hh =>
      constructor
      · intro w' ws' hq hpos
        dsimp only at hq hpos
        rcases hh with h | h
        · rw [h] at hq; cases hq
        · exact absurd hpos h
      · intro _; exact ⟨rfl, rfl⟩

/-- Concrete steps refuting C4 as stated for the spin-wait version (one
of its two cited `processQueue` versions): at `t = 5 s` the processor
wakes from a sleep scheduled for an old window while the (moved) reset
time is `30 s`; instead of looping and sleeping again it restores
`remaining = limit` and immediately admits the queued waiter. -/
theorem C4_counterexample :
    BStep BVer.spin ⟨5000, ⟨⟨.fin 1, .fin 0, 30, none⟩, [9], Pc.sleeping 5000⟩⟩
      BLab.procRefill
      ⟨5000, ⟨⟨.fin 1, .fin 1, 30, none⟩, [9], Pc.admitting⟩⟩ ∧
    BStep BVer.spin ⟨5000, ⟨⟨.fin 1, .fin 1, 30, none⟩, [9], Pc.admitting⟩⟩
      (BLab.admitQ 9)
      ⟨5000, ⟨⟨.fin 1, .fin 0, 30, none⟩, [], Pc.admitting⟩⟩ ∧
    5000 < 30 * 1000 := by
  refine ⟨?_, ?_, by decide⟩
  · exact BStep.wakeRefillSpin 5000 ⟨.fin 1, .fin 0, 30, none⟩ [9] 5000 (by decide)
  · exact BStep.admitQ _ 5000 ⟨.fin 1, .fin 1, 30, none⟩ 9 [] (by decide)

/-- Witness for the amended C4: its wake-re-check part applied at a
concrete chain-version wake whose window moved forward. -/
theorem C4_queue_processor_chain_witness :
    (BStep BVer.chain ⟨6000, ⟨⟨.fin 1, .fin 0, 30, none⟩, [9], Pc.sleeping 6000⟩⟩
        BLab.procLoop
        ⟨6000, ⟨⟨.fin 1, .fin 0, 30, none⟩, [9], Pc.loopTop⟩⟩ ∧
      isProcLab BLab.procLoop = true) ∧
    (6000 ≤ 6000 ∧
      BLab.procLoop = BLab.procLoop) := by
  have hstep : BStep BVer.chain
      ⟨6000, ⟨⟨.fin 1, .fin 0, 30, none⟩, [9], Pc.sleeping 6000⟩⟩
      BLab.procLoop
      ⟨6000, ⟨⟨.fin 1, .fin 0, 30, none⟩, [9], Pc.loopTop⟩⟩ :=
    BStep.wakeLoopChain 6000 ⟨.fin 1, .fin 0, 30, none⟩ [9] 6000
      (by decide) (by decide)
  have h := C4_queue_processor_chain.2.2.1 _ _ _ 6000 hstep (by decide) rfl
  exact ⟨⟨hstep, rfl⟩, h.1, (h.2.1 (by decide)).1⟩

/-! ## Comparing the two bucket implementations (claim C9) -/

lemma chain_proc_frozen_aux {a : BConf} {ls : List BLab} {b : BConf}
    (tr : BTrace .chain a ls b)
    (hlt : a.now < a.st.core.reset * 1000)
    (hnp : a.st.core.remaining.isPos = false)
    (hl : ∀ l ∈ ls, isProcLab l = true) :
    b.now = a.now ∧ b.st.core = a.st.core ∧ ∀ w, BLab.admitQ w ∉ ls := by
  induction tr with
  | nil a => exact ⟨rfl, rfl, by simp⟩
  | cons hstep htr ih =>
    rename_i a b c l ls
    have hlhead := hl l (List.mem_cons_self _ _)
    have hltail : ∀ l ∈ ls, isProcLab l = true :=
      fun l hm => hl l (List.mem_cons_of_mem _ hm)
    cases hstep with
    | tick v now st d => simp [isProcLab] at hlhead
    | acqAdmit v now cc q pc w hh => simp [isProcLab] at hlhead
    | acqQueue v now cc q pc w hh => simp [isProcLab] at hlhead
    | upd v now cc q pc hh => simp [isProcLab] at hlhead
    | clr v now cc q pc => simp [isProcLab] at hlhead
    | procExit v now cc =>
      obtain ⟨h1, h2, h3⟩ := ih hlt hnp hltail
      exact ⟨h1, h2, fun w hm => by
        rcases List.mem_cons.mp hm with h | h
        · cases h
        · exact h3 w h⟩
    | procSleep v now cc q hq2 ht =>
      obtain ⟨h1, h2, h3⟩ := ih hlt hnp hltail
      exact ⟨h1, h2, fun w hm => by
        rcases List.mem_cons.mp hm with h | h
        · cases h
        · exact h3 w h⟩
    | procRefillTop v now cc q hq2 ht =>
      dsimp only at hlt
      omega
    | wakeRefillChain now cc q t hw ht =>
      dsimp only at hlt
      omega
    | wakeLoopChain now cc q t hw ht =>
      obtain ⟨h1, h2, h3⟩ := ih hlt hnp hltail
      exact ⟨h1, h2, fun w hm => by
        rcases List.mem_cons.mp hm with h | h
        · cases h
        · exact h3 w h⟩
    | admitQ v now cc w ws hr =>
      dsimp only at hnp
      rw [hr] at hnp
      cases hnp
    | admitDone v now cc q hh =>
      obtain ⟨h1, h2, h3⟩ := ih hlt hnp hltail
      exact ⟨h1, h2, fun w hm => by
        rcases List.mem_cons.mp hm with h | h
        · cases h
        · exact h3 w h⟩

/-- Concrete configuration refuting C9 as stated: processor asleep for an
old window (`target = 7 s`) after `update()` moved the reset time to
`40 s`; `remaining = 0` and waiter `2` is queued.  The spin-wait version
wakes, refills and admits waiter `2` at `t = 7 s`; the promise-chain
version cannot perform any refill there, and no processor-only run of it
admits anyone — the two implementations do not admit the same calls at
the same times. -/
theorem C9_counterexample :
    BTrace BVer.spin ⟨7000, ⟨⟨.fin 3, .fin 0, 40, none⟩, [2], Pc.sleeping 7000⟩⟩
      [BLab.procRefill, BLab.admitQ 2]
      ⟨7000, ⟨⟨.fin 3, .fin 2, 40, none⟩, [], Pc.admitting⟩⟩ ∧
    (∀ b : BConf,
      ¬ BStep BVer.chain ⟨7000, ⟨⟨.fin 3, .fin 0, 40, none⟩, [2], Pc.sleeping 7000⟩⟩
          BLab.procRefill b) ∧
    (∀ (ls : List BLab) (b : BConf),
      BTrace BVer.chain ⟨7000, ⟨⟨.fin 3, .fin 0, 40, none⟩, [2], Pc.sleeping 7000⟩⟩
          ls b →
      (∀ l ∈ ls, isProcLab l = true) → ∀ w, BLab.admitQ w ∉ ls) := by
  refine ⟨?_, ?_, ?_⟩
  · exact
      BTrace.cons (BStep.wakeRefillSpin 7000 ⟨.fin 3, .fin 0, 40, none⟩ [2] 7000
          (by decide))
        (BTrace.cons (BStep.admitQ _ 7000 ⟨.fin 3, .fin 3, 40, none⟩ 2 [] (by decide))
          (BTrace.nil _))
  · intro b hs
    cases hs with
    | wakeRefillChain now cc q t hw ht => exact absurd ht (by decide)
  · intro ls b tr hl
    exact (chain_proc_frozen_aux tr (by decide) (by decide) hl).2.2

/-- C9 (amended): the two `RateLimitBucket` implementations take exactly
the same steps from every configuration except a wake from sleep whose
(possibly moved) reset time still lies in the future: their direct
admission (`acquireSlot`), `update`, `clear`, enqueueing, release loop
and in-window wakes coincide, and they differ precisely when `update()`
moved the reset time forward past the scheduled wake — there the
spin-wait version refills while the promise-chain version loops. -/
theorem C9_step_agreement :
    ∀ (a : BConf) (l : BLab) (b : BConf),
      (match a.st.pc with
        | Pc.sleeping _ => a.st.core.reset * 1000 ≤ a.now
        | _ => True) →
      (BStep .spin a l b ↔ BStep .chain a l b) := by
  intro a l b hcond
  constructor
  · intro hs
    cases hs with
    | tick v now st d => exact BStep.tick _ now st d
    | acqAdmit v now c q pc w hh => exact BStep.acqAdmit _ now c q pc w hh
    | acqQueue v now c q pc w hh => exact BStep.acqQueue _ now c q pc w hh
    | upd v now c q pc hh => exact BStep.upd _ now c q pc hh
    | clr v now c q pc => exact BStep.clr _ now c q pc
    | procExit v now c => exact BStep.procExit _ now c
    | procSleep v now c q hq ht => exact BStep.procSleep _ now c q hq ht
    | procRefillTop v now c q hq ht => exact BStep.procRefillTop _ now c q hq ht
    | wakeRefillSpin now c q t hw =>
      exact BStep.wakeRefillChain now c q t hw hcond
    | admitQ v now c w ws hr => exact BStep.admitQ _ now c w ws hr
    | admitDone v now c q hh => exact BStep.admitDone _ now c q hh
  · intro hs
    cases hs with
    | tick v now st d => exact BStep.tick _ now st d
    | acqAdmit v now c q pc w hh => exact BStep.acqAdmit _ now c q pc w hh
    | acqQueue v now c q pc w hh => exact BStep.acqQueue _ now c q pc w hh
    | upd v now c q pc hh => exact BStep.upd _ now c q pc hh
    | clr v now c q pc => exact BStep.clr _ now c q pc
    | procExit v now c => exact BStep.procExit _ now c
    | procSleep v now c q hq ht => exact BStep.procSleep _ now c q hq ht
    | procRefillTop v now c q hq ht => exact BStep.procRefillTop _ now c q hq ht
    | wakeRefillChain now c q t hw ht =>
      exact BStep.wakeRefillSpin now c q t hw
    | wakeLoopChain now c q t hw ht =>
      dsimp only at hcond
      omega
    | admitQ v now c w ws hr => exact BStep.admitQ _ now c w ws hr
    | admitDone v now c q hh => exact BStep.admitDone _ now c q hh

/-- Witness for the amended C9: agreement applied at a concrete in-window
wake, transporting the spin-wait step to the promise-chain version. -/
theorem C9_step_agreement_witness :
    BStep BVer.spin ⟨50000, ⟨⟨.fin 4, .fin 0, 50, none⟩, [3], Pc.sleeping 50000⟩⟩
      BLab.procRefill
      ⟨50000, ⟨⟨.fin 4, .fin 4, 50, none⟩, [3], Pc.admitting⟩⟩ ∧
    BStep BVer.chain ⟨50000, ⟨⟨.fin 4, .fin 0, 50, none⟩, [3], Pc.sleeping 50000⟩⟩
      BLab.procRefill
      ⟨50000, ⟨⟨.fin 4, .fin 4, 50, none⟩, [3], Pc.admitting⟩⟩ := by
  have hs : BStep BVer.spin ⟨50000, ⟨⟨.fin 4, .fin 0, 50, none⟩, [3], Pc.sleeping 50000⟩⟩
      BLab.procRefill
      ⟨50000, ⟨⟨.fin 4, .fin 4, 50, none⟩, [3], Pc.admitting⟩⟩ :=
    BStep.wakeRefillSpin 50000 ⟨.fin 4, .fin 0, 50, none⟩ [3] 50000 (by decide)
  exact ⟨hs, (C9_step_agreement _ _ _ (by decide)).mp hs⟩

/-- C10: a freshly constructed `RateLimitBucket` (before any `update()`)
has `limit = remaining = Infinity` and `reset = 0`; every `acquire()` call
is admitted immediately (never enqueued, never refilled), and the bucket
state — in particular `remaining = Infinity` — is unchanged no matter how
many calls are admitted, in both versions of the class. -/
theorem C10_fresh_bucket_admits_immediately :
    (initBucket.limit = .inf ∧ initBucket.remaining = .inf ∧ initBucket.reset = 0) ∧
    (∀ now : Nat, acquireSlot now initBucket = (initBucket, .admitted)) ∧
    (∀ (v : BVer) (t : Nat) (ls : List BLab) (b : BConf),
      BTrace v (freshConf t) ls b →
      (∀ l ∈ ls, isTickOrAcquire l = true) →
      b.st.core = initBucket ∧ b.st.queue = [] ∧
        (∀ l ∈ ls, ∀ w r ad, l = .acquire w r ad → r = false ∧ ad = true)) := by
  refine ⟨⟨rfl, rfl, rfl⟩, acquireSlot_init, ?_⟩
  intro v t ls b tr hl
  exact fresh_trace_aux tr rfl rfl hl

/-- Witness for C10: a concrete two-acquire run of the fresh bucket. -/
theorem C10_fresh_bucket_admits_immediately_witness :
    BTrace BVer.chain (freshConf 0)
        [BLab.acquire 7 false true, BLab.tick 5, BLab.acquire 8 false true]
        ⟨5, ⟨initBucket, [], Pc.idle⟩⟩ ∧
      ((⟨5, ⟨initBucket, [], Pc.idle⟩⟩ : BConf).st.core = initBucket ∧
        (⟨5, ⟨initBucket, [], Pc.idle⟩⟩ : BConf).st.queue = []) := by
  have tr : BTrace BVer.chain (freshConf 0)
      [BLab.acquire 7 false true, BLab.tick 5, BLab.acquire 8 false true]
      ⟨5, ⟨initBucket, [], Pc.idle⟩⟩ :=
    BTrace.cons (BStep.acqAdmit _ 0 initBucket [] Pc.idle 7 (by decide))
      (BTrace.cons (BStep.tick _ 0 ⟨initBucket, [], Pc.idle⟩ 5)
        (BTrace.cons (BStep.acqAdmit _ 5 initBucket [] Pc.idle 8 (by decide))
          (BTrace.nil _)))
  have hconc := C10_fresh_bucket_admits_immediately.2.2 BVer.chain 0 _ _ tr (by decide)
  exact ⟨tr, hconc.1, hconc.2.1⟩

/-! ## Gateway connection manager (`src/gateway/Gateway.ts`)

One atomic step is one synchronous run of a handler (`connect`,
`disconnect`, a `ws` event callback, a timer callback).  `wsOpen` is
`this.ws !== null`; a close requested on the socket (`ws.close(code)`)
is recorded in `closePending` and delivered later as the `close` event;
the network may also close the socket spontaneously at any time. -/

/-- `GatewayState` enum. -/
inductive GatewayState where
  | disconnected
  | connecting
  | connected
  | reconnecting
deriving DecidableEq, Repr

/-- A decoded gateway frame: opcode, optional event name, optional
sequence number, and — for Ready — the `heartbeat_interval` field. -/
structure Frame where
  op : Nat
  tEv : Option String := none
  sNum : Option Nat := none
  interval : Option Nat := none
deriving DecidableEq, Repr

/-- The private fields of `Gateway`, as initialized by the constructor. -/
structure GwSt where
  state : GatewayState := .disconnected
  wsOpen : Bool := false
  closePending : Option Nat := none
  hbTimer : Bool := false
  heartbeatMs : Option Nat := none
  awaitingAck : Bool := false
  missed : Nat := 0
  reconnectTimer : Bool := false
  attempts : Nat := 0
  intentionalClose : Bool := false
  seq : Option Nat := none
deriving DecidableEq, Repr

/-- `MAX_MISSED_HB = 3`. -/
def MAX_MISSED_HB : Nat := 3

/-- `_stopHeartbeat()`. -/
def stopHeartbeat (s : GwSt) : GwSt :=
  { s with hbTimer := false, awaitingAck := false, missed := 0 }

/-- `_startHeartbeat()`: no-op when `heartbeatMs` is null or `0` (both
falsy); otherwise stop, send an immediate beat (`awaitingAck := true`)
and start the interval timer. -/
def startHeartbeat (s : GwSt) : GwSt :=
  match s.heartbeatMs with
  | none => s
  | some 0 => s
  | some (_ + 1) => { stopHeartbeat s with hbTimer := true, awaitingAck := true }

/-- One interval tick of the heartbeat timer: on a still-unacknowledged
beat, pre-increment `missed`; at `MAX_MISSED_HB` stop the timer and
request `ws.close(1001)`; otherwise send the next beat. -/
def hbTickFn (s : GwSt) : GwSt :=
  if s.awaitingAck = true ∧ MAX_MISSED_HB ≤ s.missed + 1 then
    if s.wsOpen = true then { stopHeartbeat s with closePending := some 1001 }
    else stopHeartbeat s
  else if s.awaitingAck = true then
    { s with missed := s.missed + 1, awaitingAck := true }
  else
    { s with awaitingAck := true }

/-- `_onClose(code)`: stop the heartbeat, drop the socket; an intentional
close ends Disconnected, otherwise enter Reconnecting and schedule a
reconnect (`reconnectTimer := true`; `attempts` increments at fire). -/
def onClose (s : GwSt) : GwSt :=
  if s.intentionalClose = true then
    { stopHeartbeat s with
        wsOpen := false
        closePending := none
        state := .disconnected }
  else
    { stopHeartbeat s with
        wsOpen := false
        closePending := none
        state := .reconnecting
        reconnectTimer := true }

/-- `_route` after the sequence-cursor update: Ready enters Connected,
resets `attempts`, stores the interval and starts the heartbeat;
HeartbeatAck clears the unacknowledged flag and the missed count;
Dispatch only re-emits. -/
def routeFrame (f : Frame) (s : GwSt) : GwSt :=
  if f.op = 3 then
    startHeartbeat { s with state := .connected, attempts := 0, heartbeatMs := f.interval }
  else if f.op = 11 then
    { s with awaitingAck := false, missed := 0 }
  else s

/-- `_onMessage` on a binary frame: `if (payload.s != null) this.seq =
payload.s`, then route by opcode. -/
def onMessage (f : Frame) (s : GwSt) : GwSt :=
  routeFrame f { s with seq := match f.sNum with | some n => some n | none => s.seq }

/-- `connect()`: no-op from Connected/Connecting; clears the
intentional-close flag only from Disconnected; opens the socket. -/
def connectFn (s : GwSt) : GwSt :=
  if s.state = .connected ∨ s.state = .connecting then s
  else if s.state = .disconnected then
    { s with intentionalClose := false, state := .connecting, wsOpen := true }
  else
    { s with state := .connecting, wsOpen := true }

/-- `disconnect()`: set the intentional-close flag, tear down (stop the
heartbeat, cancel a pending reconnect timer, close the socket), force
Disconnected. -/
def disconnectFn (s : GwSt) : GwSt :=
  if s.wsOpen = true then
    { stopHeartbeat s with
        intentionalClose := true
        reconnectTimer := false
        closePending := some 1000
        wsOpen := false
        state := .disconnected }
  else
    { stopHeartbeat s with
        intentionalClose := true
        reconnectTimer := false
        state := .disconnected }

/-- The reconnect timer fires: `attempts++`, then `connect()`. -/
def reconnectFireFn (s : GwSt) : GwSt :=
  connectFn { s with reconnectTimer := false, attempts := s.attempts + 1 }

/-- Labels of gateway steps. -/
inductive GwLab where
  | connectL
  | disconnectL
  | msg (f : Frame)
  | hbTickL
  | closeEvt (code : Nat)
  | reconFireL
deriving DecidableEq, Repr

/-- One atomic handler run of the gateway. -/
inductive GwStep : GwSt → GwLab → GwSt → Prop where
  | connectStep (s : GwSt) : GwStep s .connectL (connectFn s)
  | disconnectStep (s : GwSt) : GwStep s .disconnectL (disconnectFn s)
  | msgStep (s : GwSt) (f : Frame) (h : s.wsOpen = true) :
      GwStep s (.msg f) (onMessage f s)
  | hbTickStep (s : GwSt) (h : s.hbTimer = true) : GwStep s .hbTickL (hbTickFn s)
  | closeDelivered (s : GwSt) (code : Nat) (h : s.closePending = some code) :
      GwStep s (.closeEvt code) (onClose s)
  | closeUnexpected (s : GwSt) (code : Nat) (h : s.wsOpen = true) :
      GwStep s (.closeEvt code) (onClose s)
  | reconFireStep (s : GwSt) (h : s.reconnectTimer = true) :
      GwStep s .reconFireL (reconnectFireFn s)

/-- A finite labelled run of the gateway. -/
inductive GwTrace : GwSt → List GwLab → GwSt → Prop where
  | nil (s : GwSt) : GwTrace s [] s
  | cons {a b c : GwSt} {l : GwLab} {ls : List GwLab} :
      GwStep a l b → GwTrace b ls c → GwTrace a (l :: ls) c

/-! ### Field-preservation helpers -/

lemma startHeartbeat_intentional (s : GwSt) :
    (startHeartbeat s).intentionalClose = s.intentionalClose := by
  unfold startHeartbeat
  split <;> rfl

lemma routeFrame_intentional (f : Frame) (s : GwSt) :
    (routeFrame f s).intentionalClose = s.intentionalClose := by
  unfold routeFrame
  split
  · rw [startHeartbeat_intentional]
  · split <;> rfl

lemma onMessage_intentional (f : Frame) (s : GwSt) :
    (onMessage f s).intentionalClose = s.intentionalClose := by
  unfold onMessage
  rw [routeFrame_intentional]

lemma hbTickFn_intentional (s : GwSt) :
    (hbTickFn s).intentionalClose = s.intentionalClose := by
  unfold hbTickFn
  split
  · split <;> rfl
  · split <;> rfl

lemma onClose_intentional (s : GwSt) :
    (onClose s).intentionalClose = s.intentionalClose := by
  unfold onClose
  split <;> rfl

lemma startHeartbeat_seq (s : GwSt) : (startHeartbeat s).seq = s.seq := by
  unfold startHeartbeat
  split <;> rfl

lemma routeFrame_seq (f : Frame) (s : GwSt) : (routeFrame f s).seq = s.seq := by
  unfold routeFrame
  split
  · rw [startHeartbeat_seq]
  · split <;> rfl

lemma onMessage_seq (f : Frame) (s : GwSt) :
    (onMessage f s).seq = match f.sNum with | some n => some n | none => s.seq := by
  unfold onMessage
  rw [routeFrame_seq]

lemma hbTickFn_seq (s : GwSt) : (hbTickFn s).seq = s.seq := by
  unfold hbTickFn
  split
  · split <;> rfl
  · split <;> rfl

lemma onClose_seq (s : GwSt) : (onClose s).seq = s.seq := by
  unfold onClose
  split <;> rfl

lemma connectFn_seq (s : GwSt) : (connectFn s).seq = s.seq := by
  unfold connectFn
  split
  · rfl
  · split <;> rfl

lemma disconnectFn_seq (s : GwSt) : (disconnectFn s).seq = s.seq := by
  unfold disconnectFn
  split <;> rfl

lemma reconnectFireFn_seq (s : GwSt) : (reconnectFireFn s).seq = s.seq := by
  unfold reconnectFireFn
  rw [connectFn_seq]

/-! ### Claim C2: heartbeat liveness detection -/

/-- C2: on a heartbeat tick with the previous beat unacknowledged the
missed-count increments; on the tick where it reaches `MAX_MISSED_HB = 3`
the timer stops and the socket is force-closed with code `1001`
(distinguished from the `1000` used by `disconnect()`); the resulting
close event — the close not being intentional — puts the gateway in
Reconnecting with a reconnect scheduled; a heartbeat-ack frame at any
time clears the unacknowledged flag and zeroes the missed-count. -/
theorem C2_heartbeat_timeout :
    (∀ s : GwSt, s.awaitingAck = true → s.missed + 1 < MAX_MISSED_HB →
      (hbTickFn s).missed = s.missed + 1 ∧ (hbTickFn s).hbTimer = s.hbTimer ∧
        (hbTickFn s).closePending = s.closePending) ∧
    (∀ s : GwSt, s.awaitingAck = true → MAX_MISSED_HB ≤ s.missed + 1 →
      (hbTickFn s).hbTimer = false ∧
        (s.wsOpen = true → (hbTickFn s).closePending = some 1001)) ∧
    (∀ s : GwSt, s.awaitingAck = true → MAX_MISSED_HB ≤ s.missed + 1 →
      s.wsOpen = true → s.intentionalClose = false →
      GwStep (hbTickFn s) (.closeEvt 1001) (onClose (hbTickFn s)) ∧
        (onClose (hbTickFn s)).state = .reconnecting ∧
        (onClose (hbTickFn s)).reconnectTimer = true) ∧
    (∀ (s : GwSt) (f : Frame), f.op = 11 →
      (onMessage f s).awaitingAck = false ∧ (onMessage f s).missed = 0) := by
  have htimeout : ∀ s : GwSt, s.awaitingAck = true → MAX_MISSED_HB ≤ s.missed + 1 →
      s.wsOpen = true →
      hbTickFn s = { stopHeartbeat s with closePending := some 1001 } := by
    intro s h1 h2 hw
    have hc : s.awaitingAck = true ∧ MAX_MISSED_HB ≤ s.missed + 1 := ⟨h1, h2⟩
    unfold hbTickFn
    rw [if_pos hc, if_pos hw]
  refine ⟨?_, ?_, ?_, ?_⟩
  · intro s h1 h2
    have hn : ¬ MAX_MISSED_HB ≤ s.missed + 1 := by omega
    simp [hbTickFn, h1, hn]
  · intro s h1 h2
    have hc : s.awaitingAck = true ∧ MAX_MISSED_HB ≤ s.missed + 1 := ⟨h1, h2⟩
    constructor
    · unfold hbTickFn
      rw [if_pos hc]
      split <;> rfl
    · intro hw
      rw [htimeout s h1 h2 hw]
  · intro s h1 h2 hw hi
    have he : hbTickFn s = { stopHeartbeat s with closePending := some 1001 } :=
      htimeout s h1 h2 hw
    have hcp : (hbTickFn s).closePending = some 1001 := by rw [he]
    refine ⟨GwStep.closeDelivered _ 1001 hcp, ?_, ?_⟩
    · rw [he]
      simp [onClose, stopHeartbeat, hi]
    · rw [he]
      simp [onClose, stopHeartbeat, hi]
  · intro s f hop
    have h3 : ¬ f.op = 3 := by omega
    simp [onMessage, routeFrame, h3, hop]

/-- A connected gateway at two missed heartbeats, used as witness input. -/
def c2wSt : GwSt :=
  { state := .connected
    wsOpen := true
    hbTimer := true
    heartbeatMs := some 100
    awaitingAck := true
    missed := 2
    intentionalClose := false
    seq := some 4 }

/-- Witness for C2: its parts applied at a concrete connected state with
two missed beats and at a concrete heartbeat-ack frame. -/
theorem C2_heartbeat_timeout_witness :
    ((hbTickFn c2wSt).hbTimer = false ∧
      (hbTickFn c2wSt).closePending = some 1001) ∧
    (onMessage { op := 11 } c2wSt).awaitingAck = false := by
  have h := C2_heartbeat_timeout.2.1 c2wSt rfl (by decide)
  have h4 := C2_heartbeat_timeout.2.2.2 c2wSt { op := 11 } rfl
  exact ⟨⟨h.1, h.2 rfl⟩, h4.1⟩

/-! ### Claim C3: disconnect() wins -/

/-- The state `disconnect()` leaves behind: both timers cancelled, the
socket dropped, the intentional-close flag set, state Disconnected. -/
def Quiet (s : GwSt) : Prop :=
  s.hbTimer = false ∧ s.reconnectTimer = false ∧ s.intentionalClose = true ∧
    s.wsOpen = false ∧ s.state = .disconnected

lemma disconnectFn_intentional (s : GwSt) :
    (disconnectFn s).intentionalClose = true := by
  unfold disconnectFn
  split <;> rfl

lemma quiet_disconnect (s : GwSt) : Quiet (disconnectFn s) := by
  unfold Quiet disconnectFn
  split <;> simp_all [stopHeartbeat]

lemma quiet_step {s : GwSt} {l : GwLab} {s' : GwSt} (hs : GwStep s l s')
    (hq : Quiet s) (hnc : l ≠ .connectL) :
    Quiet s' ∧ l ≠ .hbTickL ∧ l ≠ .reconFireL ∧ ∀ f, l ≠ .msg f := by
  obtain ⟨hq1, hq2, hq3, hq4, hq5⟩ := hq
  cases hs with
  | connectStep => exact absurd rfl hnc
  | disconnectStep => exact ⟨quiet_disconnect s, by simp, by simp, by simp⟩
  | msgStep f h => rw [hq4] at h; cases h
  | hbTickStep h => rw [hq1] at h; cases h
  | closeDelivered code h =>
    refine ⟨?_, by simp, by simp, by simp⟩
    unfold Quiet onClose
    rw [if_pos hq3]
    exact ⟨rfl, hq2, hq3, rfl, rfl⟩
  | closeUnexpected code h => rw [hq4] at h; cases h
  | reconFireStep h => rw [hq2] at h; cases h

lemma quiet_trace {a : GwSt} {ls : List GwLab} {b : GwSt}
    (tr : GwTrace a ls b) (hq : Quiet a)
    (hnc : ∀ l ∈ ls, l ≠ GwLab.connectL) :
    Quiet b ∧ ∀ l ∈ ls,
      l ≠ GwLab.hbTickL ∧ l ≠ GwLab.reconFireL ∧ ∀ f, l ≠ GwLab.msg f := by
  induction tr with
  | nil s => exact ⟨hq, by simp⟩
  | cons hstep htr ih =>
    rename_i a b c l ls
    obtain ⟨hqb, hl1, hl2, hl3⟩ :=
      quiet_step hstep hq (hnc l (List.mem_cons_self _ _))
    obtain ⟨hqc, hrest⟩ := ih hqb (fun l hm => hnc l (List.mem_cons_of_mem _ hm))
    refine ⟨hqc, ?_⟩
    intro l' hm
    rcases List.mem_cons.mp hm with h | h
    · subst h; exact ⟨hl1, hl2, hl3⟩
    · exact hrest l' h

/-- C3: `disconnect()` leaves a quiescent state (heartbeat timer and
reconnect timer cancelled, intentional-close flag set, socket dropped,
state Disconnected); from any quiescent state, as long as no `connect()`
occurs, every reachable state stays quiescent and no heartbeat tick,
reconnect firing or socket message can occur; `connect()` from
Disconnected clears the intentional-close flag; and the only step that
ever clears the flag is a `connect()` performed in the Disconnected
state. -/
theorem C3_disconnect_cancels_everything :
    (∀ s : GwSt, Quiet (disconnectFn s)) ∧
    (∀ (a : GwSt) (ls : List GwLab) (b : GwSt),
      GwTrace a ls b → Quiet a → (∀ l ∈ ls, l ≠ GwLab.connectL) →
      Quiet b ∧ ∀ l ∈ ls,
        l ≠ GwLab.hbTickL ∧ l ≠ GwLab.reconFireL ∧ ∀ f, l ≠ GwLab.msg f) ∧
    (∀ s : GwSt, s.state = .disconnected →
      (connectFn s).intentionalClose = false) ∧
    (∀ (s : GwSt) (l : GwLab) (s' : GwSt),
      GwStep s l s' → s.intentionalClose = true → s.reconnectTimer = false →
      s'.intentionalClose = false → l = GwLab.connectL ∧ s.state = .disconnected) := by
  refine ⟨quiet_disconnect, fun a ls b tr hq hnc => quiet_trace tr hq hnc, ?_, ?_⟩
  · intro s hst
    simp [connectFn, hst]
  · intro s l s' hs hTrue hTimer hFalse
    cases hs with
    | connectStep =>
      refine ⟨rfl, ?_⟩
      cases hst : s.state with
      | disconnected => rfl
      | connecting =>
        have he : connectFn s = s := by simp [connectFn, hst]
        rw [he, hTrue] at hFalse
        cases hFalse
      | connected =>
        have he : connectFn s = s := by simp [connectFn, hst]
        rw [he, hTrue] at hFalse
        cases hFalse
      | reconnecting =>
        have he : (connectFn s).intentionalClose = s.intentionalClose := by
          simp [connectFn, hst]
        rw [he, hTrue] at hFalse
        cases hFalse
    | disconnectStep =>
      rw [disconnectFn_intentional] at hFalse
      cases hFalse
    | msgStep f h =>
      rw [onMessage_intentional, hTrue] at hFalse
      cases hFalse
    | hbTickStep h =>
      rw [hbTickFn_intentional, hTrue] at hFalse
      cases hFalse
    | closeDelivered code h =>
      rw [onClose_intentional, hTrue] at hFalse
      cases hFalse
    | closeUnexpected code h =>
      rw [onClose_intentional, hTrue] at hFalse
      cases hFalse
    | reconFireStep h =>
      rw [hTimer] at h
      cases h

/-- Witness for C3: a quiescent state reached by a concrete
`disconnect()`, its pending close event delivered without resurrecting
anything, and a flag-clearing step identified as a fresh `connect()`. -/
theorem C3_disconnect_cancels_everything_witness :
    Quiet (disconnectFn c2wSt) ∧
    (Quiet (onClose (disconnectFn c2wSt)) ∧
      GwLab.closeEvt 1000 ≠ GwLab.hbTickL) ∧
    ((connectFn (disconnectFn c2wSt)).intentionalClose = false ∧
      GwLab.connectL = GwLab.connectL ∧
      (disconnectFn c2wSt).state = GatewayState.disconnected) := by
  have hq : Quiet (disconnectFn c2wSt) :=
    C3_disconnect_cancels_everything.1 c2wSt
  have hstep : GwStep (disconnectFn c2wSt) (GwLab.closeEvt 1000)
      (onClose (disconnectFn c2wSt)) :=
    GwStep.closeDelivered _ 1000 rfl
  have htr : GwTrace (disconnectFn c2wSt) [GwLab.closeEvt 1000]
      (onClose (disconnectFn c2wSt)) :=
    GwTrace.cons hstep (GwTrace.nil _)
  have h2 := C3_disconnect_cancels_everything.2.1 _ _ _ htr hq (by decide)
  have hcstep : GwStep (disconnectFn c2wSt) GwLab.connectL
      (connectFn (disconnectFn c2wSt)) :=
    GwStep.connectStep _
  have h4 := C3_disconnect_cancels_everything.2.2.2 _ _ _ hcstep rfl rfl
    (C3_disconnect_cancels_everything.2.2.1 _ rfl)
  exact ⟨hq, ⟨h2.1, (h2.2 _ (by simp)).1⟩,
    C3_disconnect_cancels_everything.2.2.1 _ rfl, h4.1, h4.2⟩

/-! ### Claim C7: the sequence cursor -/

/-- A connected gateway whose last-seen sequence number is `5`. -/
def c7St : GwSt :=
  { state := .connected
    wsOpen := true
    hbTimer := true
    heartbeatMs := some 100
    seq := some 5 }

/-- A dispatch frame carrying sequence number `3`. -/
def c7Frame : Frame :=
  { op := 0
    tEv := some "MESSAGE_CREATE"
    sNum := some 3 }

/-- Concrete run refuting C7 as stated: with the cursor at `5`, a
dispatch frame carrying sequence number `3` moves the cursor down to
`3` (no monotonicity is enforced), and `disconnect()` leaves the cursor
at its old value instead of clearing it. -/
theorem C7_counterexample :
    GwStep c7St (GwLab.msg c7Frame) (onMessage c7Frame c7St) ∧
    c7St.seq = some 5 ∧
    (onMessage c7Frame c7St).seq = some 3 ∧
    GwStep c7St GwLab.disconnectL (disconnectFn c7St) ∧
    (disconnectFn c7St).seq = some 5 ∧
    (disconnectFn c7St).state = GatewayState.disconnected := by
  exact ⟨GwStep.msgStep _ _ rfl, rfl, rfl, GwStep.disconnectStep _, rfl, rfl⟩

/-- C7 (amended): the sequence cursor is overwritten by each inbound
frame's sequence number whenever one is present and is otherwise
untouched; in particular it never decreases only if inbound sequence
numbers never decrease; and no operation — `disconnect()` included —
ever clears it back to its initial empty value: it is `none` only
before the first sequenced frame. -/
theorem C7_seq_cursor_behaviour :
    (∀ (f : Frame) (s : GwSt),
      (onMessage f s).seq
        = match f.sNum with | some n => some n | none => s.seq) ∧
    (∀ s : GwSt, (disconnectFn s).seq = s.seq) ∧
    (∀ (s : GwSt) (l : GwLab) (s' : GwSt), GwStep s l s' →
      s'.seq = s.seq ∨
        ∃ (f : Frame) (n : Nat),
          l = GwLab.msg f ∧ f.sNum = some n ∧ s'.seq = some n) := by
  refine ⟨onMessage_seq, disconnectFn_seq, ?_⟩
  intro s l s' hs
  cases hs with
  | connectStep => exact Or.inl (connectFn_seq s)
  | disconnectStep => exact Or.inl (disconnectFn_seq s)
  | msgStep f h =>
    cases hsn : f.sNum with
    | none =>
      refine Or.inl ?_
      rw [onMessage_seq, hsn]
    | some n =>
      refine Or.inr ⟨f, n, rfl, hsn, ?_⟩
      rw [onMessage_seq, hsn]
  | hbTickStep h => exact Or.inl (hbTickFn_seq s)
  | closeDelivered code h => exact Or.inl (onClose_seq s)
  | closeUnexpected code h => exact Or.inl (onClose_seq s)
  | reconFireStep h => exact Or.inl (reconnectFireFn_seq s)

/-- Witness for the amended C7: its step part applied at a concrete
heartbeat tick, which leaves the cursor untouched. -/
theorem C7_seq_cursor_behaviour_witness :
    (hbTickFn c7St).seq = c7St.seq ∨
      ∃ (f : Frame) (n : Nat),
        GwLab.hbTickL = GwLab.msg f ∧ f.sNum = some n ∧
          (hbTickFn c7St).seq = some n := by
  have hstep : GwStep c7St GwLab.hbTickL (hbTickFn c7St) :=
    GwStep.hbTickStep _ rfl
  exact C7_seq_cursor_behaviour.2.2 _ _ _ hstep

/-! ## REST request executor (`src/rest/REST.ts`)

`request()` is a loop of attempts `0 .. maxRetries`.  Each attempt
waits on the global limit, acquires a bucket slot (first attempt only),
performs the transport call, feeds headers into the bucket, updates
global-limit state, classifies the response, and retries or fails.  The
transport is a function from the attempt index to the response; `dur`
gives each call's duration and `bucketDelay` the time spent inside
`bucket.acquire()` on the first attempt. -/

/-- The typed failures thrown by `handleResponse` / `validateSnowflake`. -/
inductive RestError where
  | validation (name : String)
  | rateLimited (retryAfter : Nat) (isGlobal : Bool)
  | unauthorized
  | forbidden
  | notFound
  | serverErr (status : Nat)
  | httpErr (status : Nat)
deriving DecidableEq, Repr

/-- A transport response: status plus the error-body fields
(`retry_after`, `global`) and the rate-limit headers. -/
structure RespM where
  status : Nat
  retryAfterB : Option Nat := none
  globalB : Option Bool := none
  hGlobal : Bool := false
  hLimit : Option Nat := none
  hRemaining : Option Nat := none
  hReset : Option Nat := none
  hBucket : Option String := none
deriving DecidableEq, Repr

/-- `handleResponse`: 204 and 2xx succeed; 429 throws `RateLimitError`
with `retry_after ?? 5` and `global ?? false`; 401/403/404 throw their
errors; 500/502/503/504 throw `ServerError`; anything else `HTTPError`. -/
def classifyResponse (r : RespM) : Option RestError :=
  if r.status = 204 then none
  else if 200 ≤ r.status ∧ r.status < 300 then none
  else if r.status = 429 then
    some (.rateLimited (r.retryAfterB.getD 5) (r.globalB.getD false))
  else if r.status = 401 then some .unauthorized
  else if r.status = 403 then some .forbidden
  else if r.status = 404 then some .notFound
  else if r.status = 500 ∨ r.status = 502 ∨ r.status = 503 ∨ r.status = 504 then
    some (.serverErr r.status)
  else some (.httpErr r.status)

/-- `globalRateLimited` / `globalResetAt` (ms). -/
structure GlobalSt where
  limited : Bool := false
  resetAt : Nat := 0
deriving DecidableEq, Repr

/-- `waitForGlobalRateLimit()`: returns the updated state and the time at
which execution resumes. -/
def waitForGlobal (now : Nat) (g : GlobalSt) : GlobalSt × Nat :=
  if g.limited = false then (g, now)
  else if g.resetAt ≤ now then ({ g with limited := false }, now)
  else ({ g with limited := false }, g.resetAt)

/-- The in-loop global-header check: `x-ratelimit-global: true` sets the
global limit from `x-ratelimit-reset` (seconds) or `now + 1000`. -/
def applyGlobalHeaders (now : Nat) (r : RespM) (g : GlobalSt) : GlobalSt :=
  if r.hGlobal = true then
    { limited := true
      resetAt := match r.hReset with | some n => n * 1000 | none => now + 1000 }
  else g

/-- The rate-limit headers of a response, as consumed by `update()`. -/
def headersOf (r : RespM) : HeadersM :=
  { limitH := r.hLimit, remainingH := r.hRemaining, resetH := r.hReset,
    bucketH := r.hBucket }

/-- Result of the synchronous part of one attempt, including the time of
the transport call and the time the response arrived. -/
structure AttemptOut where
  errO : Option RestError
  callAt : Nat
  afterT : Nat
  g : GlobalSt
  core : BucketCore
deriving DecidableEq, Repr

/-- One attempt of the loop body up to classification: global wait,
first-attempt bucket acquire, transport call, `bucket.update(headers)`,
global-header check, `handleResponse`. -/
def oneAttempt (resp : Nat → RespM) (dur : Nat → Nat) (bucketDelay : Nat)
    (attempt now : Nat) (g : GlobalSt) (core : BucketCore) : AttemptOut :=
  let t1 := (waitForGlobal now g).2
  let g1 := (waitForGlobal now g).1
  let t2 := if attempt = 0 then t1 + bucketDelay else t1
  let core1 := if attempt = 0 then (acquireSlot t2 core).1 else core
  let t3 := t2 + dur attempt
  { errO := classifyResponse (resp attempt)
    callAt := t2
    afterT := t3
    g := applyGlobalHeaders t3 (resp attempt) g1
    core := updateCore (headersOf (resp attempt)) core1 }

/-- The `catch` block's global update: a global 429 sets the limit to
`Date.now() + retryAfter * 1000`. -/
def catchGlobal (a : AttemptOut) : GlobalSt :=
  match a.errO with
  | some (.rateLimited ra true) => { limited := true, resetAt := a.afterT + ra * 1000 }
  | _ => a.g

/-- Which errors are retried, and the sleep before the retry:
`RateLimitError` sleeps `retryAfter` seconds, `ServerError` sleeps
`2 ^ attempt` seconds; everything else is rethrown at once. -/
def retryDelay (e : RestError) (attempt : Nat) : Option Nat :=
  match e with
  | .rateLimited ra _ => some (ra * 1000)
  | .serverErr _ => some (2 ^ attempt * 1000)
  | _ => none

/-- Outcome of a whole `request()` call: terminal result (`none` is
success), the times of the transport calls, the retry sleeps performed
(ms, in order), and the final global/bucket state. -/
structure ReqOut where
  result : Option RestError
  calls : List Nat
  sleeps : List Nat
  g : GlobalSt
  endT : Nat
  core : BucketCore
deriving DecidableEq, Repr

/-- The retry loop from attempt `attempt` with `left` attempts remaining
after it (`left = maxRetries - attempt`). -/
def requestAux (resp : Nat → RespM) (dur : Nat → Nat) (bucketDelay : Nat) :
    Nat → Nat → Nat → GlobalSt → BucketCore → ReqOut
  | attempt, 0, now, g, core =>
    let a := oneAttempt resp dur bucketDelay attempt now g core
    ⟨a.errO, [a.callAt], [], catchGlobal a, a.afterT, a.core⟩
  | attempt, left + 1, now, g, core =>
    let a := oneAttempt resp dur bucketDelay attempt now g core
    match a.errO with
    | none => ⟨none, [a.callAt], [], catchGlobal a, a.afterT, a.core⟩
    | some e =>
      match retryDelay e attempt with
      | none => ⟨some e, [a.callAt], [], catchGlobal a, a.afterT, a.core⟩
      | some d =>
        let r := requestAux resp dur bucketDelay (attempt + 1) left (a.afterT + d)
          (catchGlobal a) a.core
        ⟨r.result, a.callAt :: r.calls, d :: r.sleeps, r.g, r.endT, r.core⟩

/-- `request()`: the loop over attempts `0 .. maxRetries`. -/
def restRequest (maxRetries : Nat) (resp : Nat → RespM) (dur : Nat → Nat)
    (bucketDelay now0 : Nat) (g0 : GlobalSt) (core0 : BucketCore) : ReqOut :=
  requestAux resp dur bucketDelay 0 maxRetries now0 g0 core0

/-- `validateSnowflake`: the identifier passes iff it is truthy
(non-empty) and matches `/^\d+$/` — its characters are one or more
ASCII digits. -/
def isValidSnowflake (id : String) : Bool :=
  (!id.data.isEmpty) && id.data.all Char.isDigit

/-- `getServer(serverId)`: validate, then `request('GET', ...)`. -/
def getServerModel (id : String) (maxRetries : Nat) (resp : Nat → RespM)
    (dur : Nat → Nat) (bucketDelay now0 : Nat) (g0 : GlobalSt)
    (core0 : BucketCore) : ReqOut :=
  if isValidSnowflake id = true then
    restRequest maxRetries resp dur bucketDelay now0 g0 core0
  else
    ⟨some (.validation "serverId"), [], [], g0, now0, core0⟩

/-! ### Claim C5: retry policy -/

/-- The statuses `handleResponse` maps to `ServerError`. -/
def isServerStatus (n : Nat) : Bool :=
  (n = 500 || n = 502) || (n = 503 || n = 504)

/-- The retry sleeps of an all-server-error run starting at `attempt`
with `left` retries remaining: `2 ^ attempt, 2 ^ (attempt + 1), …`
seconds. -/
def backoffSleeps (attempt left : Nat) : List Nat :=
  match left with
  | 0 => []
  | l + 1 => 2 ^ attempt * 1000 :: backoffSleeps (attempt + 1) l

lemma oneAttempt_errO (resp : Nat → RespM) (dur : Nat → Nat) (bucketDelay : Nat)
    (attempt now : Nat) (g : GlobalSt) (core : BucketCore) :
    (oneAttempt resp dur bucketDelay attempt now g core).errO
      = classifyResponse (resp attempt) := rfl

lemma oneAttempt_callAt (resp : Nat → RespM) (dur : Nat → Nat) (bucketDelay : Nat)
    (attempt now : Nat) (g : GlobalSt) (core : BucketCore) :
    (oneAttempt resp dur bucketDelay attempt now g core).callAt
      = if attempt = 0 then (waitForGlobal now g).2 + bucketDelay
        else (waitForGlobal now g).2 := rfl

lemma oneAttempt_afterT (resp : Nat → RespM) (dur : Nat → Nat) (bucketDelay : Nat)
    (attempt now : Nat) (g : GlobalSt) (core : BucketCore) :
    (oneAttempt resp dur bucketDelay attempt now g core).afterT
      = (oneAttempt resp dur bucketDelay attempt now g core).callAt + dur attempt :=
  rfl

lemma classify_server {r : RespM} (h : isServerStatus r.status = true) :
    classifyResponse r = some (.serverErr r.status) := by
  simp [isServerStatus] at h
  rcases h with (h | h) | (h | h) <;> simp [classifyResponse, h]

lemma requestAux_server_all {resp : Nat → RespM} {dur : Nat → Nat}
    {bucketDelay : Nat} (hall : ∀ i, isServerStatus (resp i).status = true) :
    ∀ (left attempt now : Nat) (g : GlobalSt) (core : BucketCore),
      (requestAux resp dur bucketDelay attempt left now g core).result
          = some (.serverErr ((resp (attempt + left)).status)) ∧
      (requestAux resp dur bucketDelay attempt left now g core).sleeps
          = backoffSleeps attempt left ∧
      (requestAux resp dur bucketDelay attempt left now g core).calls.length
          = left + 1 := by
  intro left
  induction left with
  | zero =>
    intro attempt now g core
    refine ⟨?_, rfl, rfl⟩
    show (oneAttempt resp dur bucketDelay attempt now g core).errO = _
    rw [oneAttempt_errO, classify_server (hall attempt), Nat.add_zero]
  | succ l ih =>
    intro attempt now g core
    have hcl : (oneAttempt resp dur bucketDelay attempt now g core).errO
        = some (.serverErr ((resp attempt).status)) := by
      rw [oneAttempt_errO, classify_server (hall attempt)]
    simp only [requestAux]
    rw [hcl]
    dsimp only [retryDelay]
    refine ⟨?_, ?_, ?_⟩
    · rw [show attempt + (l + 1) = attempt + 1 + l from by omega]
      exact (ih _ _ _ _).1
    · rw [backoffSleeps, (ih _ _ _ _).2.1]
    · rw [List.length_cons, (ih _ _ _ _).2.2]

lemma backoffSleeps_get (attempt left k : Nat) (h : k < left) :
    (backoffSleeps attempt left).get? k = some (2 ^ (attempt + k) * 1000) := by
  induction left generalizing attempt k with
  | zero => omega
  | succ l ih =>
    cases k with
    | zero => rw [backoffSleeps, Nat.add_zero]; rfl
    | succ kk =>
      rw [backoffSleeps]
      show (backoffSleeps (attempt + 1) l).get? kk = _
      rw [ih (attempt + 1) kk (by omega),
        show attempt + 1 + kk = attempt + (kk + 1) from by omega]

/-- The 4xx statuses handled without retry by `request()` (429 retries). -/
def is4xxNot429 (n : Nat) : Bool :=
  ((400 ≤ n) && (n < 500)) && !(n = 429)

lemma classify_4xx (r : RespM) (h : is4xxNot429 r.status = true) :
    ∃ e : RestError, classifyResponse r = some e ∧
      ∀ attempt, retryDelay e attempt = none := by
  simp [is4xxNot429] at h
  obtain ⟨⟨h1, h2⟩, h3⟩ := h
  by_cases e1 : r.status = 401
  · exact ⟨.unauthorized, by simp [classifyResponse, e1], fun _ => rfl⟩
  · by_cases e2 : r.status = 403
    · exact ⟨.forbidden, by simp [classifyResponse, e2], fun _ => rfl⟩
    · by_cases e3 : r.status = 404
      · exact ⟨.notFound, by simp [classifyResponse, e3], fun _ => rfl⟩
      · refine ⟨.httpErr r.status, ?_, fun _ => rfl⟩
        unfold classifyResponse
        rw [if_neg (by omega), if_neg (by omega), if_neg (by omega),
          if_neg e1, if_neg e2, if_neg e3, if_neg (by omega)]

lemma requestAux_immediate {resp : Nat → RespM} {dur : Nat → Nat}
    {bucketDelay attempt left now : Nat} {g : GlobalSt} {core : BucketCore}
    {e : RestError}
    (hcl : classifyResponse (resp attempt) = some e)
    (hrd : retryDelay e attempt = none) :
    (requestAux resp dur bucketDelay attempt left now g core).result = some e ∧
    (requestAux resp dur bucketDelay attempt left now g core).calls.length = 1 ∧
    (requestAux resp dur bucketDelay attempt left now g core).sleeps = [] := by
  have he : (oneAttempt resp dur bucketDelay attempt now g core).errO = some e := by
    rw [oneAttempt_errO, hcl]
  cases left with
  | zero =>
    refine ⟨?_, rfl, rfl⟩
    show (oneAttempt resp dur bucketDelay attempt now g core).errO = some e
    exact he
  | succ l =>
    simp only [requestAux]
    rw [he]
    dsimp only
    rw [hrd]
    exact ⟨rfl, rfl, rfl⟩

/-- C5 (amended): on responses whose status is one of `500/502/503/504`
on every attempt, `request()` performs exactly `maxRetries` retries
after the first attempt (`maxRetries + 1` transport calls), sleeping
`2 ^ attempt` seconds before each retry (1 s, 2 s, 4 s, …), and then
surfaces the `ServerError`; a `401/403/404` or any other non-429 `4xx`
response is surfaced immediately with a single transport call and no
sleep. -/
theorem C5_retry_policy :
    (∀ (maxRetries : Nat) (resp : Nat → RespM) (dur : Nat → Nat)
        (bucketDelay now0 : Nat) (g0 : GlobalSt) (core0 : BucketCore),
      (∀ i, isServerStatus (resp i).status = true) →
      (restRequest maxRetries resp dur bucketDelay now0 g0 core0).result
          = some (.serverErr ((resp maxRetries).status)) ∧
      (restRequest maxRetries resp dur bucketDelay now0 g0 core0).calls.length
          = maxRetries + 1 ∧
      (restRequest maxRetries resp dur bucketDelay now0 g0 core0).sleeps
          = backoffSleeps 0 maxRetries ∧
      ∀ k, k < maxRetries →
        (restRequest maxRetries resp dur bucketDelay now0 g0 core0).sleeps.get? k
          = some (2 ^ k * 1000)) ∧
    (∀ (maxRetries : Nat) (resp : Nat → RespM) (dur : Nat → Nat)
        (bucketDelay now0 : Nat) (g0 : GlobalSt) (core0 : BucketCore),
      is4xxNot429 ((resp 0).status) = true →
      ∃ e : RestError,
        classifyResponse (resp 0) = some e ∧
        (restRequest maxRetries resp dur bucketDelay now0 g0 core0).result
            = some e ∧
        (restRequest maxRetries resp dur bucketDelay now0 g0 core0).calls.length
            = 1 ∧
        (restRequest maxRetries resp dur bucketDelay now0 g0 core0).sleeps = []) := by
  constructor
  · intro maxRetries resp dur bucketDelay now0 g0 core0 hall
    obtain ⟨h1, h2, h3⟩ :=
      requestAux_server_all hall maxRetries 0 now0 g0 core0
    refine ⟨?_, h3, h2, ?_⟩
    · rw [restRequest, h1, Nat.zero_add]
    · intro k hk
      rw [restRequest, h2, backoffSleeps_get 0 maxRetries k hk, Nat.zero_add]
  · intro maxRetries resp dur bucketDelay now0 g0 core0 h4
    obtain ⟨e, hcl, hrd⟩ := classify_4xx (resp 0) h4
    obtain ⟨h1, h2, h3⟩ :=
      (requestAux_immediate hcl (hrd 0) :
        (requestAux resp dur bucketDelay 0 maxRetries now0 g0 core0).result
            = some e ∧
        (requestAux resp dur bucketDelay 0 maxRetries now0 g0 core0).calls.length
            = 1 ∧
        (requestAux resp dur bucketDelay 0 maxRetries now0 g0 core0).sleeps = [])
    exact ⟨e, hcl, h1, h2, h3⟩

/-- The transport that always answers 501. -/
def resp501 : Nat → RespM := fun _ => { status := 501 }

/-- Concrete run refuting C5 as stated: 501 is a 5xx status, yet
`request()` with `maxRetries = 3` performs no retry at all on repeated
501s — `handleResponse` maps only 500/502/503/504 to `ServerError`, so
501 becomes an `HTTPError` that is rethrown immediately: one transport
call, no sleeps, and the surfaced error is not a `ServerError`. -/
theorem C5_counterexample :
    (restRequest 3 resp501 (fun _ => 0) 0 0 {} initBucket).result
        = some (RestError.httpErr 501) ∧
    (restRequest 3 resp501 (fun _ => 0) 0 0 {} initBucket).result
        ≠ some (RestError.serverErr 501) ∧
    (restRequest 3 resp501 (fun _ => 0) 0 0 {} initBucket).calls.length = 1 ∧
    (restRequest 3 resp501 (fun _ => 0) 0 0 {} initBucket).sleeps = [] := by
  refine ⟨?_, ?_, ?_, ?_⟩ <;> decide

/-- The transport that always answers 503. -/
def resp503 : Nat → RespM := fun _ => { status := 503 }

/-- The transport that always answers 404. -/
def resp404 : Nat → RespM := fun _ => { status := 404 }

/-- Witness for the amended C5: a three-retry run of repeated 503s and an
immediate failure on 404. -/
theorem C5_retry_policy_witness :
    ((restRequest 3 resp503 (fun _ => 0) 0 0 {} initBucket).result
        = some (RestError.serverErr 503) ∧
      (restRequest 3 resp503 (fun _ => 0) 0 0 {} initBucket).sleeps
        = [1000, 2000, 4000]) ∧
    ∃ e : RestError,
      classifyResponse (resp404 0) = some e ∧
      (restRequest 3 resp404 (fun _ => 0) 0 0 {} initBucket).result = some e ∧
      (restRequest 3 resp404 (fun _ => 0) 0 0 {} initBucket).calls.length = 1 ∧
      (restRequest 3 resp404 (fun _ => 0) 0 0 {} initBucket).sleeps = [] := by
  have h1 := C5_retry_policy.1 3 resp503 (fun _ => 0) 0 0 {}
    initBucket (fun _ => rfl)
  have h2 := C5_retry_policy.2 3 resp404 (fun _ => 0) 0 0 {}
    initBucket (by decide)
  refine ⟨⟨h1.1, ?_⟩, h2⟩
  rw [h1.2.2.1]
  rfl

/-! ### Claim C6: the global rate limit gates every attempt -/

lemma waitForGlobal_now_le (now : Nat) (g : GlobalSt) :
    now ≤ (waitForGlobal now g).2 := by
  unfold waitForGlobal
  split
  · exact Nat.le_refl now
  · split
    · exact Nat.le_refl now
    · rename_i h1 h2
      omega

lemma waitForGlobal_reset_le {now : Nat} {g : GlobalSt} (h : g.limited = true) :
    g.resetAt ≤ (waitForGlobal now g).2 := by
  unfold waitForGlobal
  rw [if_neg (by rw [h]; simp)]
  split
  · rename_i h2
    exact h2
  · exact Nat.le_refl _

lemma waitForGlobal_clears {now : Nat} {g : GlobalSt} (h : g.limited = true) :
    (waitForGlobal now g).1.limited = false := by
  unfold waitForGlobal
  rw [if_neg (by rw [h]; simp)]
  split <;> rfl

lemma oneAttempt_callAt_ge (resp : Nat → RespM) (dur : Nat → Nat)
    (bucketDelay attempt now : Nat) (g : GlobalSt) (core : BucketCore) :
    (waitForGlobal now g).2
      ≤ (oneAttempt resp dur bucketDelay attempt now g core).callAt := by
  rw [oneAttempt_callAt]
  split
  · exact Nat.le_add_right _ _
  · exact Nat.le_refl _

lemma requestAux_calls_ge {resp : Nat → RespM} {dur : Nat → Nat}
    {bucketDelay : Nat} :
    ∀ (left attempt now : Nat) (g : GlobalSt) (core : BucketCore) (t : Nat),
      t ∈ (requestAux resp dur bucketDelay attempt left now g core).calls →
      (waitForGlobal now g).2 ≤ t := by
  intro left
  induction left with
  | zero =>
    intro attempt now g core t ht
    simp only [requestAux] at ht
    have he : t = (oneAttempt resp dur bucketDelay attempt now g core).callAt := by
      simpa using ht
    rw [he]
    exact oneAttempt_callAt_ge resp dur bucketDelay attempt now g core
  | succ l ih =>
    intro attempt now g core t ht
    simp only [requestAux] at ht
    cases herr : (oneAttempt resp dur bucketDelay attempt now g core).errO with
    | none =>
      rw [herr] at ht
      dsimp only at ht
      have he : t = (oneAttempt resp dur bucketDelay attempt now g core).callAt := by
        simpa using ht
      rw [he]
      exact oneAttempt_callAt_ge resp dur bucketDelay attempt now g core
    | some e =>
      rw [herr] at ht
      dsimp only at ht
      cases hrd : retryDelay e attempt with
      | none =>
        rw [hrd] at ht
        dsimp only at ht
        have he : t = (oneAttempt resp dur bucketDelay attempt now g core).callAt := by
          simpa using ht
        rw [he]
        exact oneAttempt_callAt_ge resp dur bucketDelay attempt now g core
      | some d =>
        rw [hrd] at ht
        dsimp only at ht
        rcases List.mem_cons.mp ht with h | h
        · rw [h]
          exact oneAttempt_callAt_ge resp dur bucketDelay attempt now g core
        · have h2 := ih (attempt + 1)
            ((oneAttempt resp dur bucketDelay attempt now g core).afterT + d)
            (catchGlobal (oneAttempt resp dur bucketDelay attempt now g core))
            ((oneAttempt resp dur bucketDelay attempt now g core).core) t h
          have h3 := waitForGlobal_now_le
            ((oneAttempt resp dur bucketDelay attempt now g core).afterT + d)
            (catchGlobal (oneAttempt resp dur bucketDelay attempt now g core))
          have h4 := oneAttempt_callAt_ge resp dur bucketDelay attempt now g core
          have h5 := oneAttempt_afterT resp dur bucketDelay attempt now g core
          omega

/-- C6: a response reporting a global limit (the `x-ratelimit-global`
header, or a 429 whose body has `global: true`) sets the process-wide
global-limit state with the reset time the code computes; a limited
state makes `waitForGlobalRateLimit` suspend until at least the reset
time (and then clear the flag); and a request started under a set
global limit performs every one of its transport calls — whatever the
route's bucket — no earlier than the global reset time, the check
running once per attempt before the call. -/
theorem C6_global_limit_gates_requests :
    (∀ (now : Nat) (r : RespM) (g : GlobalSt), r.hGlobal = true →
      (applyGlobalHeaders now r g).limited = true ∧
      (applyGlobalHeaders now r g).resetAt
        = match r.hReset with | some n => n * 1000 | none => now + 1000) ∧
    (∀ (a : AttemptOut) (ra : Nat), a.errO = some (.rateLimited ra true) →
      (catchGlobal a).limited = true ∧
      (catchGlobal a).resetAt = a.afterT + ra * 1000) ∧
    (∀ (now : Nat) (g : GlobalSt), g.limited = true →
      g.resetAt ≤ (waitForGlobal now g).2 ∧
      now ≤ (waitForGlobal now g).2 ∧
      (waitForGlobal now g).1.limited = false) ∧
    (∀ (maxRetries : Nat) (resp : Nat → RespM) (dur : Nat → Nat)
        (bucketDelay now0 : Nat) (g0 : GlobalSt) (core0 : BucketCore) (t : Nat),
      g0.limited = true →
      t ∈ (restRequest maxRetries resp dur bucketDelay now0 g0 core0).calls →
      g0.resetAt ≤ t) := by
  refine ⟨?_, ?_, ?_, ?_⟩
  · intro now r g h
    simp [applyGlobalHeaders, h]
  · intro a ra h
    unfold catchGlobal
    rw [h]
    exact ⟨rfl, rfl⟩
  · intro now g h
    exact ⟨waitForGlobal_reset_le h, waitForGlobal_now_le now g,
      waitForGlobal_clears h⟩
  · intro maxRetries resp dur bucketDelay now0 g0 core0 t hg ht
    have h1 := requestAux_calls_ge maxRetries 0 now0 g0 core0 t ht
    have h2 : g0.resetAt ≤ (waitForGlobal now0 g0).2 := waitForGlobal_reset_le hg
    omega

/-- The transport that always answers 200. -/
def resp200 : Nat → RespM := fun _ => { status := 200 }

/-- Witness for C6: a request started at `t = 0` under a global limit
resetting at `5 ms` performs its only transport call at `t = 5000`,
not before the reset time. -/
theorem C6_global_limit_gates_requests_witness :
    (5000 : Nat) ∈ (restRequest 0 resp200 (fun _ => 0) 0 0 ⟨true, 5000⟩ initBucket).calls ∧
    (5000 : Nat) ≤ 5000 := by
  refine ⟨by decide, ?_⟩
  exact C6_global_limit_gates_requests.2.2.2 0 resp200 (fun _ => 0) 0 0
    ⟨true, 5000⟩ initBucket 5000 rfl (by decide)

/-! ### Claim C8: identifier validation -/

/-- C8: a resource identifier that is not a non-empty all-digit string
makes `getServer` fail at once with the local validation error: no
global wait, no bucket acquisition, no transport call — the returned
outcome carries the untouched global and bucket state, an empty call
list and the `ValidationError`. -/
theorem C8_invalid_snowflake_fails_fast :
    ∀ (id : String) (maxRetries : Nat) (resp : Nat → RespM) (dur : Nat → Nat)
      (bucketDelay now0 : Nat) (g0 : GlobalSt) (core0 : BucketCore),
      isValidSnowflake id = false →
      getServerModel id maxRetries resp dur bucketDelay now0 g0 core0
        = ⟨some (.validation "serverId"), [], [], g0, now0, core0⟩ := by
  intro id maxRetries resp dur bucketDelay now0 g0 core0 h
  simp [getServerModel, h]

/-- Witness for C8: the identifier `"abc"` is rejected with zero
transport calls and untouched bucket state. -/
theorem C8_invalid_snowflake_fails_fast_witness :
    isValidSnowflake "abc" = false ∧
    getServerModel "abc" 3 resp200 (fun _ => 0) 0 0 {} initBucket
      = ⟨some (.validation "serverId"), [], [], {}, 0, initBucket⟩ := by
  refine ⟨by decide, ?_⟩
  exact C8_invalid_snowflake_fails_fast "abc" 3 resp200 (fun _ => 0) 0 0 {}
    initBucket (by decide)

end IntentJs
